import Mathlib

/-!
# Verification of the codesearch-rs trigram index core

A shallow embedding, in Lean 4, of the parts of the `codesearch-rs`
repository that the specification's claims are about:

* the index writer (`src/libcindex/src/writer/write.rs`): `add`,
  `add_name`, `push_trigrams_to_post`, `flush` and `merge_post`;
* the merge-side posting reader
  (`src/libcindex/src/merge/postmapreader.rs`): `load` and `next_id`;
* the default index path resolution (`src/libcsearch/src/lib.rs`):
  `csearch_index`.

Bytes are modelled as `List Nat` with every element `< 256` where it
matters; `u32` arithmetic that wraps in Rust is made explicit with
`% 2^32`.  Code of the repository that is not part of the provided
sources (the varint codec, the posting-list packer, the post heap and
the query-side `PostReader`) is modelled from the specification; each
such definition carries a doc comment saying so.
-/

/-- `2^32`, the modulus of Rust `u32` arithmetic. -/
def U32MOD : Nat := 4294967296

/-- `u32::MAX`, used by the code as the "no-more" sentinel file id and as
the initial `prev` value (`-1`) of delta coding. -/
def U32MAX : Nat := 4294967295

/-- Big-endian serialization of a `u32` (as done by
`write_u32::<BigEndian>`): four bytes, most significant first. -/
def be32 (v : Nat) : List Nat :=
  [v / 16777216 % 256, v / 65536 % 256, v / 256 % 256, v % 256]

/-- Big-endian decoding of four bytes into a `u32`. -/
def readBE32 (bs : List Nat) : Nat :=
  match bs with
  | b0 :: b1 :: b2 :: b3 :: _ => b0 * 16777216 + b1 * 65536 + b2 * 256 + b3
  | _ => 0

/-- `WriteTrigram::write_trigram` (writer/mod.rs): the low 24 bits of `t`,
big-endian, as three bytes. -/
def write_trigram (t : Nat) : List Nat :=
  [t / 65536 % 256, t / 256 % 256, t % 256]

/-- The LEB128 encoder loop, made structural on a fuel argument so that it
evaluates by `rfl`; `fuel ≥ v` suffices (the value shrinks by a factor of
128 per emitted byte), and `write_uvarint_eq` below recovers the natural
recurrence. -/
def uvarintBytes : Nat → Nat → List Nat
  | 0, v => [v % 128]
  | fuel + 1, v =>
    if v < 128 then [v] else (v % 128 + 128) :: uvarintBytes fuel (v / 128)

/-- Modelled from the spec: `libvarint::write_uvarint`, unsigned LEB128 —
7 payload bits per byte, least significant group first, high bit set on
every byte except the last. -/
def write_uvarint (v : Nat) : List Nat :=
  uvarintBytes v v

theorem uvarintBytes_fuel (fuel fuel' v : Nat) (h : v ≤ fuel) (h' : v ≤ fuel') :
    uvarintBytes fuel v = uvarintBytes fuel' v := by
  induction fuel generalizing fuel' v with
  | zero =>
    interval_cases v
    cases fuel' with
    | zero => rfl
    | succ n => simp [uvarintBytes]
  | succ n ih =>
    cases fuel' with
    | zero =>
      interval_cases v
      simp [uvarintBytes]
    | succ m =>
      by_cases hv : v < 128
      · simp [uvarintBytes, hv]
      · simp only [uvarintBytes, if_neg hv]
        have hd : v / 128 ≤ n := by
          have := Nat.div_lt_self (by omega : 0 < v) (by omega : 1 < 128)
          omega
        have hd' : v / 128 ≤ m := by
          have := Nat.div_lt_self (by omega : 0 < v) (by omega : 1 < 128)
          omega
        rw [ih m (v / 128) hd hd']

/-- `write_uvarint` satisfies the LEB128 recurrence: values below 128 are
one literal byte, larger values emit the low 7 bits with the
continuation bit set and recurse on the remaining bits. -/
theorem write_uvarint_eq (v : Nat) :
    write_uvarint v =
      if v < 128 then [v] else (v % 128 + 128) :: write_uvarint (v / 128) := by
  by_cases hv : v < 128
  · cases v with
    | zero => simp [write_uvarint, uvarintBytes, hv]
    | succ n => simp [write_uvarint, uvarintBytes, hv]
  · have h1 : 0 < v := by omega
    obtain ⟨k, hk⟩ : ∃ k, v = k + 1 := ⟨v - 1, by omega⟩
    subst hk
    simp only [write_uvarint, uvarintBytes, if_neg hv]
    have hd : (k + 1) / 128 ≤ k := by
      have := Nat.div_lt_self (by omega : 0 < k + 1) (by omega : 1 < 128)
      omega
    rw [uvarintBytes_fuel k ((k + 1) / 128) ((k + 1) / 128) hd (Nat.le_refl _)]

/-- Modelled from the spec: `libvarint::read_uvarint` — returns the decoded
value together with the number of bytes consumed, or `none` when no
terminating byte (high bit clear) is present before the end of input. -/
def read_uvarint : List Nat → Option (Nat × Nat)
  | [] => none
  | b :: rest =>
    if b < 128 then some (b, 1)
    else
      match read_uvarint rest with
      | none => none
      | some (v, n) => some (v * 128 + b % 128, n + 1)

/- ### Default index path (`libcsearch/src/lib.rs`) -/

/-- `csearch_index` from `libcsearch/src/lib.rs`, with the process
environment abstracted as a partial map from variable names to values
(`env::var` errors both when the variable is unset and when it is not
unicode; both are `none` here).  The `.expect` panic when no variable is
set is modelled as `none`. -/
def csearch_index (env : String → Option String) : Option String :=
  match env "CSEARCHINDEX" with
  | some v => some v
  | none =>
    match env "HOME" with
    | some h => some (h ++ "/.csearchindex")
    | none =>
      match env "USERPROFILE" with
      | some u => some (u ++ "/.csearchindex")
      | none => none

/- ### Writer data model (`libcindex/src/writer`) -/

/-- `IndexErrorKind` from `writer/error.rs`.  The `io::ErrorKind` payload
of `IoError` is abstracted as a `Nat`. -/
inductive IndexErrorKind where
  | IoError (kind : Nat)
  | FileNameError
  | FileTooLong
  | LineTooLong
  | TooManyTrigrams
  | BinaryDataPresent
  | HighInvalidUtf8Ratio
deriving DecidableEq, Repr

/-- `PostEntry` from `writer/postentry.rs` (not under the provided
sources; its layout — the pair of a 24-bit trigram and a 32-bit file id,
ordered as the packed 64-bit value `(trigram << 32) | file_id` — is taken
from the spec). -/
structure PostEntry where
  trigram : Nat
  file_id : Nat
deriving DecidableEq, Repr

/-- The packed 64-bit sort key `(trigram << 32) | file_id` of a post
entry.  Modelled from the spec (`writer/postentry.rs` and
`writer/sort_post.rs` are not under the provided sources). -/
def PostEntry.key (e : PostEntry) : Nat :=
  e.trigram * U32MOD + e.file_id

/-- Modelled from the spec: `sort_post` sorts a run of post entries by the
packed 64-bit key, i.e. lexicographically by `(trigram, file_id)` (the
spec allows any comparison sort; insertion sort is used here so the model
evaluates by `rfl`). -/
def sort_post (v : List PostEntry) : List PostEntry :=
  v.insertionSort (fun a b => a.key ≤ b.key)

/-- `NPOST` from `writer/mod.rs`: 64 MiB worth of 8-byte post entries. -/
def NPOST : Nat := (64 * 1048576) / 8

/-- The state of `IndexWriter` (`writer/write.rs`) that the claims are
about.  The three scratch files (`name_data`, `name_index`, `post_index`)
and the output file (`index`) are modelled as the byte sequences written
to them so far; `get_offset` on such a buffer is its length.  The
`SparseSet` of trigrams is not part of the state: `add` consumes its
dense contents immediately, and the per-file trigram scan (whose code,
`writer/trigramiter.rs`, is not under the provided sources) is passed to
`add` as an explicit `Except` result. -/
structure IndexWriter where
  max_trigram_count : Nat
  max_file_len : Nat
  paths : List (Option (List Nat))
  name_data : List Nat
  name_index : List Nat
  number_of_names_written : Nat
  bytes_written : Nat
  post : List PostEntry
  post_files : List (List PostEntry)
  post_index : List Nat
  index : List Nat
deriving DecidableEq, Repr

/-- `IndexWriter::add_name`: record the current name-data offset in the
name index, then append the NUL-terminated name to the name data and
consume the next file id.  A filename that is not valid UTF-8
(`to_str` returning `None`) is `none`; note the offset is written to the
name index *before* the UTF-8 check, so the error result carries the
extended name index.  Returns the assigned file id together with the new
state, or the error kind together with the state as mutated so far. -/
def IndexWriter.add_name (w : IndexWriter) (filename : Option (List Nat)) :
    Except (IndexErrorKind × IndexWriter) (Nat × IndexWriter) :=
  let offset := w.name_data.length
  let w1 := { w with name_index := w.name_index ++ be32 offset }
  match filename with
  | none => .error (.FileNameError, w1)
  | some s =>
    let w2 := { w1 with name_data := w1.name_data ++ s ++ [0] }
    .ok (w2.number_of_names_written,
         { w2 with number_of_names_written := w2.number_of_names_written + 1 })

/-- `IndexWriter::flush_post`: sort the in-memory post buffer and move it
into `post_files` as a finished run. -/
def IndexWriter.flush_post (w : IndexWriter) : IndexWriter :=
  { w with post := [], post_files := w.post_files ++ [sort_post w.post] }

/-- `IndexWriter::push_trigrams_to_post`: append one `(trigram, file_id)`
entry per trigram to the in-memory buffer, spilling the buffer as a run
whenever it is full. -/
def IndexWriter.push_trigrams_to_post (w : IndexWriter) (file_id : Nat)
    (trigrams : List Nat) : IndexWriter :=
  trigrams.foldl
    (fun w t =>
      let w := if w.post.length ≥ NPOST then w.flush_post else w
      { w with post := w.post ++ [⟨t, file_id⟩] })
    w

/-- `IndexWriter::add`.  The run of the trigram reader over the file's
bytes (`writer/trigramiter.rs`, not under the provided sources) is
abstracted as `scan`: either a per-file error
(`LineTooLong` / `BinaryDataPresent` / `HighInvalidUtf8Ratio`, or an
`IoError` from reading), or the dense list of distinct trigrams of the
file.  Returns `none` paired with the new state on success, and the error
kind paired with the state as mutated so far on failure. -/
def IndexWriter.add (w : IndexWriter) (filename : Option (List Nat))
    (scan : Except IndexErrorKind (List Nat)) (size : Nat) :
    Option IndexErrorKind × IndexWriter :=
  if size > w.max_file_len then (some .FileTooLong, w)
  else
    match scan with
    | .error e => (some e, w)
    | .ok trigrams =>
      if trigrams.length > w.max_trigram_count then (some .TooManyTrigrams, w)
      else
        let w := { w with bytes_written := w.bytes_written + size }
        match w.add_name filename with
        | .error (e, w') => (some e, w')
        | .ok (file_id, w') => (none, w'.push_trigrams_to_post file_id trigrams)

/- ### Posting-list construction (`IndexWriter::merge_post`) -/

/-- Modelled from the spec: the delta encoder of `to_diffs`
(`writer/postinglist.rs`, not under the provided sources).  `prev` starts
at `u32::MAX` (conceptually `-1`); each file id emits the wrapping
difference `file_id - prev`; a zero delta (a duplicate file id) is
collapsed.  `prev` is kept reduced mod `2^32` (it is a `u32`). -/
def to_diffs_go (prev : Nat) : List Nat → List Nat
  | [] => []
  | id :: rest =>
    let delta := (id % U32MOD + (U32MOD - prev)) % U32MOD
    if delta = 0 then to_diffs_go prev rest
    else delta :: to_diffs_go (id % U32MOD) rest

/-- Modelled from the spec: `to_diffs` delta-encodes a posting list's file
ids starting from `prev = u32::MAX`. -/
def to_diffs (ids : List Nat) : List Nat :=
  to_diffs_go U32MAX ids

/-- Modelled from the spec: the `TakeWhilePeek` adaptor
(`writer/postinglist.rs`, not under the provided sources) partitions the
merged sorted stream into maximal runs of equal trigram; each run yields
the trigram together with its file ids in stream order. -/
def groupByTrigram : List PostEntry → List (Nat × List Nat)
  | [] => []
  | e :: rest =>
    match groupByTrigram rest with
    | [] => [(e.trigram, [e.file_id])]
    | (t, ids) :: gs =>
      if e.trigram = t then (t, e.file_id :: ids) :: gs
      else (e.trigram, [e.file_id]) :: (t, ids) :: gs

/-- Modelled from the spec: the `PostHeap` (`writer/postheap.rs`, not
under the provided sources) yields the global sorted order of all runs'
elements.  `merge_post` feeds it the spilled runs in `post_files` plus
the sorted current buffer, so its output is the sorted concatenation. -/
def IndexWriter.mergedStream (w : IndexWriter) : List PostEntry :=
  sort_post (w.post_files.flatten ++ sort_post w.post)

/-- A decoded 13-byte post directory entry `(trigram, count, offset)`. -/
structure PostDirEntry where
  trigram : Nat
  count : Nat
  offset : Nat
deriving DecidableEq, Repr

/-- The 13-byte serialization of a post directory entry, as written by
`merge_post`: 3-byte big-endian trigram, then `count` and `offset` as
big-endian `u32`. -/
def serializeDirEntry (e : PostDirEntry) : List Nat :=
  write_trigram e.trigram ++ be32 e.count ++ be32 e.offset

/-- The body of `merge_post`'s `while let Some(plist)` loop: for each
posting list (a maximal equal-trigram group of the merged stream, with
`offset` the current position relative to the start of the posting
section) write the 3-byte trigram followed by the varint-encoded deltas
to the posting section, and record a directory entry whose count field is
`written - 1` (the number of deltas minus one; `written ≥ 1` always holds
— see `emitPostingLists_counts` — so `Nat` and `u32` subtraction agree).
Returns the posting-section bytes and the directory entries. -/
def emitPostingLists (offset : Nat) :
    List (Nat × List Nat) → List Nat × List PostDirEntry
  | [] => ([], [])
  | (t, ids) :: rest =>
    let deltas := to_diffs ids
    let bytes := write_trigram t ++ (deltas.map write_uvarint).flatten
    let r := emitPostingLists (offset + bytes.length) rest
    (bytes ++ r.1, ⟨t, deltas.length - 1, offset⟩ :: r.2)

/-- `IndexWriter::merge_post`: drain the spilled runs and the sorted
in-memory buffer through the heap, write each posting list and its
directory entry, then write the end marker — trigram `0xFFFFFF` plus one
`0` varint in the posting section, and a synthetic directory entry
`(0xFFFFFF, 0, end_offset)` where `end_offset` is the length of the real
posting data. -/
def IndexWriter.merge_post (w : IndexWriter) : IndexWriter :=
  let r := emitPostingLists 0 (groupByTrigram w.mergedStream)
  { w with
    post := [],
    post_files := [],
    index := w.index ++ r.1 ++ write_trigram 0xffffff ++ write_uvarint 0,
    post_index := w.post_index ++ (r.2.map serializeDirEntry).flatten
        ++ serializeDirEntry ⟨0xffffff, 0, r.1.length⟩ }

/- ### `IndexWriter::flush` -/

/-- `MAGIC` from the `consts` crate (not under the provided sources);
modelled from the spec: the bytes of `"csearch index 1\n"`. -/
def MAGIC : List Nat :=
  [99, 115, 101, 97, 114, 99, 104, 32, 105, 110, 100, 101, 120, 32, 49, 10]

/-- `TRAILER_MAGIC` from the `consts` crate (not under the provided
sources); modelled from the spec: the bytes of `"\ncsearch trailr\n"`. -/
def TRAILER_MAGIC : List Nat :=
  [10, 99, 115, 101, 97, 114, 99, 104, 32, 116, 114, 97, 105, 108, 114, 10]

/-- The indexed-path list section body: each path's bytes followed by a
NUL, in order; `none` when some path is not valid UTF-8 (`to_str`
failing), which makes `flush` fail with `FileNameError`. -/
def pathsBytes : List (Option (List Nat)) → Option (List Nat)
  | [] => some []
  | none :: _ => none
  | some p :: rest => (pathsBytes rest).map (fun r => p ++ [0] ++ r)

/-- `IndexWriter::flush`: append one empty name as sentinel, then write
MAGIC, the path list (each NUL-terminated plus one extra NUL), the name
data, the posting data (via `merge_post`), the name index, the post
index, the five absolute big-endian `u32` section offsets, and
TRAILER_MAGIC.  Returns the bytes of the finished index file (the error
paths of the embedding discard the partially written output). -/
def IndexWriter.flush (w : IndexWriter) : Except IndexErrorKind (List Nat) :=
  match w.add_name (some []) with
  | .error (e, _) => .error e
  | .ok r =>
    let w1 := r.2
    let idx0 := w1.index ++ MAGIC
    let off0 := idx0.length
    match pathsBytes w1.paths with
    | none => .error .FileNameError
    | some pb =>
      let idx1 := idx0 ++ pb ++ [0]
      let off1 := idx1.length
      let idx2 := idx1 ++ w1.name_data
      let off2 := idx2.length
      let w2 := IndexWriter.merge_post { w1 with index := idx2 }
      let idx3 := w2.index
      let off3 := idx3.length
      let idx4 := idx3 ++ w2.name_index
      let off4 := idx4.length
      let idx5 := idx4 ++ w2.post_index
      .ok (idx5 ++ be32 off0 ++ be32 off1 ++ be32 off2 ++ be32 off3 ++
           be32 off4 ++ TRAILER_MAGIC)

/- ### Merge-side posting reader (`libcindex/src/merge/postmapreader.rs`) -/

/-- `POST_ENTRY_SIZE` (`libcsearch::reader`): a post directory entry is 13
bytes. -/
def POST_ENTRY_SIZE : Nat := 13

/-- Big-endian decoding of a 3-byte trigram. -/
def readTrigram : List Nat → Nat
  | b0 :: b1 :: b2 :: _ => b0 * 65536 + b1 * 256 + b2
  | _ => 0

/-- Modelled from the spec: the part of `IndexReader`
(`libcsearch/src/reader.rs`, not under the provided sources) that
`PostMapReader` uses — the memory-mapped bytes, the absolute offsets of
the posting-data and post-index sections, and `num_post`, the number of
directory entries excluding the terminator. -/
structure IndexReader where
  data : List Nat
  post_data : Nat
  post_index : Nat
  num_post : Nat
deriving DecidableEq, Repr

/-- Modelled from the spec: `IndexReader::list_at` decodes the 13-byte
directory record `(trigram, count, offset)` at the given byte offset into
the post-index section. -/
def IndexReader.list_at (ix : IndexReader) (off : Nat) : Nat × Nat × Nat :=
  let bs := ix.data.drop (ix.post_index + off)
  (readTrigram bs, readBE32 (bs.drop 3), readBE32 (bs.drop 7))

/-- `IdRange` from `merge/postmapreader.rs`: source ids in `[low, high)`
map to destination ids starting at `new`. -/
structure IdRange where
  low : Nat
  high : Nat
  new : Nat
deriving DecidableEq, Repr

/-- The state of `PostMapReader` (`merge/postmapreader.rs`).  The slice
`d` into the mmap is modelled as the suffix of the index bytes it points
to. -/
structure PostMapReader where
  index : IndexReader
  id_map : List IdRange
  tri_num : Nat
  trigram : Nat
  count : Nat
  offset : Nat
  d : List Nat
  old_id : Nat
  file_id : Nat
  i : Nat
deriving DecidableEq, Repr

/-- `PostMapReader::load`: when all directory entries are consumed
(`tri_num ≥ num_post`) mark the side exhausted — `trigram = u32::MAX`,
`count = 0`, `file_id = u32::MAX`; otherwise decode the entry at
`tri_num * POST_ENTRY_SIZE` and, when its count is nonzero, point `d`
just past the posting list's 3-byte trigram and reset `old_id` and the
id-map cursor. -/
def PostMapReader.load (p : PostMapReader) : PostMapReader :=
  if p.tri_num ≥ p.index.num_post then
    { p with trigram := U32MAX, count := 0, file_id := U32MAX }
  else
    let r := p.index.list_at (p.tri_num * POST_ENTRY_SIZE)
    let p1 := { p with trigram := r.1, count := r.2.1, offset := r.2.2 }
    if p1.count = 0 then { p1 with file_id := U32MAX }
    else
      { p1 with d := p1.index.data.drop (p1.index.post_data + p1.offset + 3),
                old_id := U32MAX, i := 0 }

/-- `PostMapReader::new`: start before the first directory entry and load
it. -/
def PostMapReader.new (ix : IndexReader) (id_map : List IdRange) :
    PostMapReader :=
  PostMapReader.load
    { index := ix, id_map := id_map, tri_num := 0, trigram := U32MAX,
      count := 0, offset := 0, d := ix.data, old_id := U32MAX, file_id := 0,
      i := 0 }

/-- `PostMapReader::next_trigram`: advance to the next directory entry. -/
def PostMapReader.next_trigram (p : PostMapReader) : PostMapReader :=
  PostMapReader.load { p with tri_num := p.tri_num + 1 }

/-- The cursor-advance loop of `next_id`, structural on a fuel argument
(`fuel ≥ id_map.length - i` suffices; `advanceCursor_eq` below recovers
the loop's recurrence). -/
def advanceCursorGo (id_map : List IdRange) (old_id : Nat) : Nat → Nat → Nat
  | i, 0 => i
  | i, fuel + 1 =>
    if h : i < id_map.length then
      if id_map[i].high ≤ old_id then
        advanceCursorGo id_map old_id (i + 1) fuel
      else i
    else i

/-- The `while self.i < self.id_map.len() && self.id_map[self.i].high <=
self.old_id { self.i += 1 }` cursor-advance loop inside `next_id`. -/
def advanceCursor (id_map : List IdRange) (old_id : Nat) (i : Nat) : Nat :=
  advanceCursorGo id_map old_id i (id_map.length + 1 - i)

theorem advanceCursorGo_stop (id_map : List IdRange) (old_id i fuel : Nat)
    (hi : ¬ i < id_map.length) :
    advanceCursorGo id_map old_id i fuel = i := by
  cases fuel <;> simp [advanceCursorGo, hi]

/-- `advanceCursor` satisfies the while-loop recurrence: step past the
current range while its `high` bound is at most `old_id`. -/
theorem advanceCursor_eq (id_map : List IdRange) (old_id i : Nat) :
    advanceCursor id_map old_id i =
      if h : i < id_map.length then
        if id_map[i].high ≤ old_id then
          advanceCursor id_map old_id (i + 1)
        else i
      else i := by
  by_cases hi : i < id_map.length
  · simp only [dif_pos hi]
    unfold advanceCursor
    obtain ⟨k, hk⟩ : ∃ k, id_map.length + 1 - i = k + 1 :=
      ⟨id_map.length - i, by omega⟩
    rw [hk]
    by_cases hh : id_map[i].high ≤ old_id
    · simp only [advanceCursorGo, dif_pos hi, if_pos hh]
      congr 1
      omega
    · simp only [advanceCursorGo, dif_pos hi, if_neg hh]
  · simp only [dif_neg hi]
    exact advanceCursorGo_stop id_map old_id i _ hi

/-- `PostMapReader::next_id`.  The `panic!("merge: inconsistent index at
trigram …")` — reached when `read_uvarint` has no terminating byte
(`unwrap` of `None`), when it consumes no bytes, or when the decoded
delta is zero — is modelled as the `.error` outcome.  Otherwise the
decoded `old_id` advances by the delta with `u32` wrap-add, the id-map
cursor advances past ranges ending at or below it, and the reader either
stops the trigram (cursor exhausted), skips a dropped file, or yields the
remapped file id `new + old_id - low`. -/
def next_id_go : Nat → PostMapReader → Except String (Bool × PostMapReader)
  | 0, p => .ok (false, { p with file_id := U32MAX })
  | fuel + 1, p =>
    match p.count with
    | 0 => .ok (false, { p with file_id := U32MAX })
    | c + 1 =>
      let p1 := { p with count := c }
      match read_uvarint p1.d with
      | none => .error "merge: inconsistent index"
      | some dn =>
        if dn.2 = 0 ∨ dn.1 = 0 then .error "merge: inconsistent index"
        else
          let p2 := { p1 with
                      d := (p1.d.drop dn.2),
                      old_id := (p1.old_id + dn.1) % U32MOD }
          let p3 := { p2 with i := advanceCursor p2.id_map p2.old_id p2.i }
          if h3 : p3.i < p3.id_map.length then
            if p3.old_id < p3.id_map[p3.i].low then next_id_go fuel p3
            else
              .ok (true, { p3 with
                file_id := p3.id_map[p3.i].new + p3.old_id - p3.id_map[p3.i].low })
          else
            .ok (false, { p3 with count := 0, file_id := U32MAX })

/-- `PostMapReader::next_id`, the loop made structural on a fuel argument
equal to the remaining delta count (the count strictly decreases per
iteration, so the fuel is exact and never exhausted; the fuel-0 clause
coincides with the count-0 exit). -/
def PostMapReader.next_id (p : PostMapReader) :
    Except String (Bool × PostMapReader) :=
  next_id_go p.count p

/- ### Query-side post reader (`libcsearch/src/reader.rs`, modelled) -/

/-- Modelled from the spec: the delta-decoding loop of `PostReader::list`
— walk the stored deltas accumulating a running file id with `u32`
wrap-add (starting from `u32::MAX`, i.e. `-1`), intersecting inline with
the `restrict` set when one is provided. -/
def decodeRestrict (restrict : Option (Finset Nat)) (prev : Nat) :
    List Nat → List Nat
  | [] => []
  | delta :: rest =>
    let id := (prev + delta) % U32MOD
    let tail := decodeRestrict restrict id rest
    match restrict with
    | none => id :: tail
    | some r => if id ∈ r then id :: tail else tail

/-- Modelled from the spec: `PostReader::list` returns the sorted set of
file ids of one trigram's posting list, optionally restricted.  The index
is abstracted as the map `idx` from a trigram to its stored delta list
(`[]` when the post directory has no entry for it, giving the empty
set). -/
def PostReader.list (idx : Nat → List Nat) (t : Nat)
    (restrict : Option (Finset Nat)) : Finset Nat :=
  (decodeRestrict restrict U32MAX (idx t)).toFinset

/-- Modelled from the spec: `PostReader::and` — `a ∩ list(t, restrict=a)`,
the restrict parameter letting the intersection short-circuit during
decoding. -/
def PostReader.and (idx : Nat → List Nat) (a : Finset Nat) (t : Nat) :
    Finset Nat :=
  a ∩ PostReader.list idx t (some a)

/-- Modelled from the spec: `PostReader::or` —
`a ∪ list(t, restrict_opt)`. -/
def PostReader.or (idx : Nat → List Nat) (a : Finset Nat) (t : Nat)
    (restrict : Option (Finset Nat)) : Finset Nat :=
  a ∪ PostReader.list idx t restrict

/- ## Shared lemmas and concrete fixtures -/

theorem readBE32_be32_append (v : Nat) (l : List Nat) :
    readBE32 (be32 v ++ l) = v % U32MOD := by
  simp only [be32, readBE32, List.cons_append, U32MOD]
  omega

/-- An empty writer with the default limits, used by concrete witnesses. -/
def w0 : IndexWriter :=
  { max_trigram_count := 30000, max_file_len := 1073741824, paths := [],
    name_data := [], name_index := [], number_of_names_written := 0,
    bytes_written := 0, post := [], post_files := [], post_index := [],
    index := [] }

/-- An index reader over an empty index, used by concrete witnesses. -/
def ixEmpty : IndexReader :=
  { data := [], post_data := 0, post_index := 0, num_post := 0 }

/- ## Claim theorems -/

/- ### C9 — default index path resolution (corrected) -/

/-- C9 counterexample: with only `USERPROFILE` set (to `C:\Users\me`),
`csearch_index` returns `C:\Users\me/.csearchindex` — the same
forward-slash suffix as the `HOME` case — not the claimed
`C:\Users\me\.csearchindex` with a backslash. -/
theorem csearch_index_backslash_counterexample :
    csearch_index
        (fun k => if k = "USERPROFILE" then some "C:\\Users\\me" else none) ≠
      some "C:\\Users\\me\\.csearchindex" ∧
    csearch_index
        (fun k => if k = "USERPROFILE" then some "C:\\Users\\me" else none) =
      some "C:\\Users\\me/.csearchindex" := by
  constructor
  · decide
  · decide

/-- C9 (amended): `csearch_index` returns the value of `CSEARCHINDEX` when
it is set; otherwise `HOME ++ "/.csearchindex"`; otherwise
`USERPROFILE ++ "/.csearchindex"` — the suffix uses a forward slash in
the `USERPROFILE` fallback too, since the code appends the same
`"/.csearchindex"` string in both fallbacks. -/
theorem csearch_index_resolution (env : String → Option String) :
    (∀ v, env "CSEARCHINDEX" = some v → csearch_index env = some v) ∧
    (env "CSEARCHINDEX" = none → ∀ h, env "HOME" = some h →
      csearch_index env = some (h ++ "/.csearchindex")) ∧
    (env "CSEARCHINDEX" = none → env "HOME" = none →
      ∀ u, env "USERPROFILE" = some u →
        csearch_index env = some (u ++ "/.csearchindex")) := by
  refine ⟨?_, ?_, ?_⟩
  · intro v hv
    simp [csearch_index, hv]
  · intro h1 h hH
    simp [csearch_index, h1, hH]
  · intro h1 h2 u hU
    simp [csearch_index, h1, h2, hU]

theorem csearch_index_resolution_witness :
    csearch_index (fun k => if k = "HOME" then some "/home/me" else none) =
      some "/home/me/.csearchindex" :=
  (csearch_index_resolution
      (fun k => if k = "HOME" then some "/home/me" else none)).2.1
    (by decide) "/home/me" (by decide)

/- ### C7 — exhausted-side sentinel (corrected) -/

/-- C7 counterexample: a `PostMapReader` over an index with no posting
lists is exhausted immediately, and its trigram field is `0xFFFFFFFF`
(`u32::MAX`), not the claimed 24-bit directory terminator `0xFFFFFF`. -/
theorem load_exhausted_counterexample :
    (PostMapReader.new ixEmpty []).trigram ≠ 0xffffff ∧
    (PostMapReader.new ixEmpty []).trigram = 0xffffffff := by
  constructor
  · decide
  · decide

/-- C7 (amended): when `tri_num` has consumed all `num_post` directory
entries, `load` marks the side exhausted by setting the trigram field to
`u32::MAX = 0xFFFFFFFF` (not the 24-bit `0xFFFFFF` terminator), zero
count, and the `u32::MAX` file-id sentinel. -/
theorem load_exhausted_sentinel (p : PostMapReader)
    (h : p.index.num_post ≤ p.tri_num) :
    p.load.trigram = U32MAX ∧ p.load.count = 0 ∧ p.load.file_id = U32MAX ∧
    U32MAX = 0xffffffff := by
  unfold PostMapReader.load
  rw [if_pos h]
  exact ⟨rfl, rfl, rfl, rfl⟩

theorem load_exhausted_sentinel_witness :
    ((PostMapReader.new ixEmpty []).load.trigram = U32MAX ∧
      (PostMapReader.new ixEmpty []).load.count = 0 ∧
      (PostMapReader.new ixEmpty []).load.file_id = U32MAX ∧
      U32MAX = 0xffffffff) :=
  load_exhausted_sentinel (PostMapReader.new ixEmpty []) (by decide)

/- ### C6 — corrupt posting data fails loudly -/

/-- C6: while deltas remain (`count > 0`), a varint with no terminating
byte (`read_uvarint` returning `none`, whose `unwrap` panics) or a
decoded delta of zero makes `next_id` fail with the
"inconsistent index" panic — modelled as the `.error` outcome — rather
than returning any `.ok` (silently truncated) result. -/
theorem next_id_corruption_fails_loudly (p : PostMapReader)
    (hc : p.count ≠ 0)
    (h : read_uvarint p.d = none ∨ ∃ n, read_uvarint p.d = some (0, n)) :
    p.next_id = .error "merge: inconsistent index" := by
  obtain ⟨c, hcc⟩ : ∃ c, p.count = c + 1 := ⟨p.count - 1, by omega⟩
  unfold PostMapReader.next_id
  rw [hcc]
  rcases h with h | ⟨n, h⟩
  · simp only [next_id_go, hcc, h]
  · simp only [next_id_go, hcc, h]
    simp

theorem next_id_corruption_fails_loudly_witness :
    PostMapReader.next_id
        { index := ixEmpty, id_map := [], tri_num := 0, trigram := 5,
          count := 1, offset := 0, d := [], old_id := 0, file_id := 0,
          i := 0 } =
      .error "merge: inconsistent index" :=
  next_id_corruption_fails_loudly
    { index := ixEmpty, id_map := [], tri_num := 0, trigram := 5,
      count := 1, offset := 0, d := [], old_id := 0, file_id := 0, i := 0 }
    (by decide) (Or.inl (by decide))

/- ### C4 — next_id remapping -/

/-- C4: for each decoded source id `old = old_id ⊞ delta` (`u32`
wrap-add), `next_id` first advances the id-map cursor with
`advanceCursor` (while `id_map[i].high ≤ old`); if the cursor passes the
end of the map the current trigram stops — `next_id` returns `false`
with the remaining count zeroed and the `u32::MAX` file-id sentinel; if
`old < id_map[i].low` the id is skipped (the loop continues on the rest
of the posting list); otherwise it yields
`file_id = id_map[i].new + old - id_map[i].low`. -/
theorem next_id_remap_cases (p : PostMapReader) (c delta n : Nat)
    (hc : p.count = c + 1)
    (hd : read_uvarint p.d = some (delta, n))
    (hn : n ≠ 0) (hdelta : delta ≠ 0) :
    ∀ old i', old = (p.old_id + delta) % U32MOD →
      i' = advanceCursor p.id_map old p.i →
      (p.id_map.length ≤ i' →
        p.next_id = .ok (false,
          { p with count := 0, d := p.d.drop n, old_id := old, i := i',
                   file_id := U32MAX })) ∧
      (∀ (h : i' < p.id_map.length), old < p.id_map[i'].low →
        p.next_id =
          PostMapReader.next_id
            { p with count := c, d := p.d.drop n, old_id := old, i := i' }) ∧
      (∀ (h : i' < p.id_map.length), p.id_map[i'].low ≤ old →
        p.next_id = .ok (true,
          { p with count := c, d := p.d.drop n, old_id := old, i := i',
                   file_id := p.id_map[i'].new + old - p.id_map[i'].low })) := by
  intro old i' hold hi'
  have hcond : ¬ (n = 0 ∨ delta = 0) := by
    rintro (h | h)
    · exact hn h
    · exact hdelta h
  refine ⟨?_, ?_, ?_⟩
  · intro hlen
    unfold PostMapReader.next_id
    rw [hc]
    simp only [next_id_go, hc, hd, if_neg hcond]
    rw [dif_neg (by simp only [← hold, ← hi']; omega)]
    subst hold hi'
    rfl
  · intro h hlow
    unfold PostMapReader.next_id
    rw [hc]
    simp only [next_id_go, hc, hd, if_neg hcond]
    rw [dif_pos (by simp only [← hold, ← hi']; omega)]
    subst hold hi'
    rw [if_pos (by exact hlow)]
  · intro h hlow
    unfold PostMapReader.next_id
    rw [hc]
    simp only [next_id_go, hc, hd, if_neg hcond]
    rw [dif_pos (by simp only [← hold, ← hi']; omega)]
    subst hold hi'
    rw [if_neg (by omega)]

theorem next_id_remap_cases_witness :
    PostMapReader.next_id
        { index := ixEmpty, id_map := [{ low := 0, high := 3, new := 10 }],
          tri_num := 0, trigram := 7, count := 1, offset := 0, d := [1],
          old_id := U32MAX, file_id := 0, i := 0 } =
      .ok (true,
        { index := ixEmpty, id_map := [{ low := 0, high := 3, new := 10 }],
          tri_num := 0, trigram := 7, count := 0, offset := 0, d := [],
          old_id := 0, file_id := 10, i := 0 }) := by
  have h := (next_id_remap_cases
      { index := ixEmpty, id_map := [{ low := 0, high := 3, new := 10 }],
        tri_num := 0, trigram := 7, count := 1, offset := 0, d := [1],
        old_id := U32MAX, file_id := 0, i := 0 }
      0 1 1 (by decide) (by decide) (by decide) (by decide)
      0 0 (by decide) (by decide)).2.2 (by decide) (by decide)
  simpa using h

/- ### C5 — per-file errors consume no file id -/

/-- C5: whenever `add` returns one of the per-file (non-I/O) errors —
`FileTooLong`, `BinaryDataPresent`, `LineTooLong`,
`HighInvalidUtf8Ratio`, `TooManyTrigrams` or `FileNameError` — the
resulting writer state has the same `number_of_names_written` as before
the call: no file id is consumed. -/
theorem add_error_consumes_no_file_id (w : IndexWriter)
    (fn : Option (List Nat)) (scan : Except IndexErrorKind (List Nat))
    (size : Nat) (e : IndexErrorKind) (w' : IndexWriter)
    (h : w.add fn scan size = (some e, w'))
    (_he : e = .FileTooLong ∨ e = .BinaryDataPresent ∨ e = .LineTooLong ∨
          e = .HighInvalidUtf8Ratio ∨ e = .TooManyTrigrams ∨
          e = .FileNameError) :
    w'.number_of_names_written = w.number_of_names_written := by
  unfold IndexWriter.add at h
  by_cases hs : size > w.max_file_len
  · rw [if_pos hs] at h
    injection h with h1 h2
    subst h2
    rfl
  · rw [if_neg hs] at h
    rcases scan with e0 | tris
    · injection h with h1 h2
      subst h2
      rfl
    · simp only at h
      by_cases ht : tris.length > w.max_trigram_count
      · rw [if_pos ht] at h
        injection h with h1 h2
        subst h2
        rfl
      · rw [if_neg ht] at h
        unfold IndexWriter.add_name at h
        rcases fn with _ | s
        · simp only at h
          injection h with h1 h2
          subst h2
          rfl
        · simp only at h
          injection h with h1 h2
          exact absurd h1.symm (by simp)

theorem add_error_consumes_no_file_id_witness :
    (IndexWriter.add w0 none (.ok []) 0).2.number_of_names_written =
      w0.number_of_names_written :=
  add_error_consumes_no_file_id w0 none (.ok []) 0 .FileNameError
    (IndexWriter.add w0 none (.ok []) 0).2 (by decide)
    (by simp)

/- ### C10 — FileNameError's frame effect on the name index -/

/-- C10: `add` with a non-UTF-8 filename (`to_str` returning `None`,
modelled as `none`) fails with `FileNameError`, but only after the
4-byte big-endian name-data offset has been appended to the name-index
scratch file: the error state carries one extra name-index entry (which
decodes back to the name-data length) while the name data and
`number_of_names_written` are unchanged (`bytes_written` was already
incremented before the name was attempted). -/
theorem add_bad_filename_writes_index_entry (w : IndexWriter)
    (tris : List Nat) (size : Nat)
    (hs : size ≤ w.max_file_len) (ht : tris.length ≤ w.max_trigram_count) :
    w.add none (.ok tris) size =
      (some .FileNameError,
        { w with bytes_written := w.bytes_written + size,
                 name_index := w.name_index ++ be32 w.name_data.length }) ∧
    (be32 w.name_data.length).length = 4 ∧
    readBE32 (be32 w.name_data.length) = w.name_data.length % U32MOD := by
  refine ⟨?_, rfl, ?_⟩
  · have h1 : ¬ size > w.max_file_len := by omega
    have h2 : ¬ tris.length > w.max_trigram_count := by omega
    simp only [IndexWriter.add, IndexWriter.add_name, if_neg h1, if_neg h2]
  · rw [← List.append_nil (be32 w.name_data.length), readBE32_be32_append]

theorem add_bad_filename_writes_index_entry_witness :
    w0.add none (.ok []) 0 =
      (some .FileNameError,
        { w0 with bytes_written := w0.bytes_written + 0,
                  name_index := w0.name_index ++ be32 w0.name_data.length }) :=
  (add_bad_filename_writes_index_entry w0 [] 0 (by decide) (by decide)).1

/- ### C2 — end-of-postings marker and synthetic directory terminator -/

/-- C2: after the last real posting list, `merge_post` appends to the
posting section the 3-byte `0xFFFFFF` trigram followed by the single
varint `0`, and appends to the post directory the synthetic terminator
entry `(0xFFFFFF, 0, end_offset)` whose offset is the length of the real
posting data, i.e. the end of the real posting lists relative to the
start of the posting section. -/
theorem merge_post_terminator (w : IndexWriter) :
    w.merge_post.index =
      w.index ++ (emitPostingLists 0 (groupByTrigram w.mergedStream)).1 ++
        ([255, 255, 255] ++ [0]) ∧
    w.merge_post.post_index =
      w.post_index ++
        (((emitPostingLists 0 (groupByTrigram w.mergedStream)).2).map
            serializeDirEntry).flatten ++
        serializeDirEntry
          ⟨0xffffff, 0,
            (emitPostingLists 0 (groupByTrigram w.mergedStream)).1.length⟩ ∧
    write_trigram 0xffffff = [255, 255, 255] ∧
    write_uvarint 0 = [0] ∧
    serializeDirEntry
        ⟨0xffffff, 0,
          (emitPostingLists 0 (groupByTrigram w.mergedStream)).1.length⟩ =
      [255, 255, 255] ++ be32 0 ++
        be32 ((emitPostingLists 0 (groupByTrigram w.mergedStream)).1.length) := by
  refine ⟨?_, ?_, by decide, by decide, ?_⟩
  · simp [IndexWriter.merge_post, write_trigram, write_uvarint, uvarintBytes,
      List.append_assoc]
  · simp [IndexWriter.merge_post]
  · rw [serializeDirEntry]
    norm_num [write_trigram]

/- ### C1 — directory count stores deltas − 1 -/

theorem groupByTrigram_ids_nonempty (l : List PostEntry) :
    ∀ g ∈ groupByTrigram l, g.2 ≠ [] := by
  induction l with
  | nil =>
    intro g hg
    simp [groupByTrigram] at hg
  | cons e rest ih =>
    intro g hg
    rw [groupByTrigram] at hg
    cases hrec : groupByTrigram rest with
    | nil =>
      rw [hrec] at hg
      simp at hg
      subst hg
      simp
    | cons g0 gs =>
      rw [hrec] at hg
      obtain ⟨t0, ids0⟩ := g0
      by_cases he : e.trigram = t0
      · simp only [if_pos he] at hg
        rcases List.mem_cons.mp hg with h | h
        · subst h
          simp
        · exact ih g (by rw [hrec]; exact List.mem_cons_of_mem _ h)
      · simp only [if_neg he] at hg
        rcases List.mem_cons.mp hg with h | h
        · subst h
          simp
        · exact ih g (by rw [hrec]; exact h)

theorem groupByTrigram_mem_ids (l : List PostEntry) :
    ∀ g ∈ groupByTrigram l, ∀ id ∈ g.2, (⟨g.1, id⟩ : PostEntry) ∈ l := by
  induction l with
  | nil =>
    intro g hg
    simp [groupByTrigram] at hg
  | cons e rest ih =>
    intro g hg id hid
    rw [groupByTrigram] at hg
    cases hrec : groupByTrigram rest with
    | nil =>
      rw [hrec] at hg
      simp at hg
      subst hg
      simp at hid
      subst hid
      exact List.mem_cons_self _ _
    | cons g0 gs =>
      rw [hrec] at hg
      obtain ⟨t0, ids0⟩ := g0
      by_cases he : e.trigram = t0
      · simp only [if_pos he] at hg
        rcases List.mem_cons.mp hg with h | h
        · subst h
          simp only at hid
          rcases List.mem_cons.mp hid with h' | h'
          · subst h'
            subst he
            exact List.mem_cons_self _ _
          · exact List.mem_cons_of_mem _
              (ih (t0, ids0) (by rw [hrec]; exact List.mem_cons_self _ _) id h')
        · exact List.mem_cons_of_mem _
            (ih g (by rw [hrec]; exact List.mem_cons_of_mem _ h) id hid)
      · simp only [if_neg he] at hg
        rcases List.mem_cons.mp hg with h | h
        · subst h
          simp at hid
          subst hid
          exact List.mem_cons_self _ _
        · exact List.mem_cons_of_mem _
            (ih g (by rw [hrec]; exact h) id hid)

theorem to_diffs_head_pos (id : Nat) (rest : List Nat)
    (h : id % U32MOD ≠ U32MAX) : 1 ≤ (to_diffs (id :: rest)).length := by
  unfold to_diffs to_diffs_go
  have hne : ¬ (id % U32MOD + (U32MOD - U32MAX)) % U32MOD = 0 := by
    unfold U32MOD U32MAX at *
    omega
  simp only [if_neg hne]
  simp

theorem emitPostingLists_spec :
    ∀ (gs : List (Nat × List Nat)) (off : Nat),
      (∀ g ∈ gs, 1 ≤ (to_diffs g.2).length) →
      List.Forall₂ (fun (e : PostDirEntry) (g : Nat × List Nat) =>
          e.trigram = g.1 ∧ e.count = (to_diffs g.2).length - 1 ∧
          e.count + 1 = (to_diffs g.2).length ∧
          readBE32 ((serializeDirEntry e).drop 3) = e.count % U32MOD)
        (emitPostingLists off gs).2 gs := by
  intro gs
  induction gs with
  | nil =>
    intro off hg
    simp [emitPostingLists]
  | cons g rest ih =>
    intro off hg
    obtain ⟨t, ids⟩ := g
    simp only [emitPostingLists]
    constructor
    · refine ⟨rfl, rfl, ?_, ?_⟩
      · have h1 := hg (t, ids) (List.mem_cons_self _ _)
        simp only at h1 ⊢
        omega
      · exact readBE32_be32_append _ _
    · exact ih _ (fun g hgm => hg g (List.mem_cons_of_mem _ hgm))

/-- C1: `merge_post` writes the post directory from the emitted entries,
and each real entry stores in its count field the number of
varint-encoded deltas written for its trigram minus one — so `count + 1`
equals the number of deltas a reader must decode; the count is the
big-endian `u32` at byte offset 3 of the 13-byte entry.  The hypothesis
says no real file id is the reserved `u32::MAX` sentinel. -/
theorem merge_post_count_is_deltas_minus_one (w : IndexWriter)
    (hw : ∀ e ∈ w.mergedStream, e.file_id % U32MOD ≠ U32MAX) :
    w.merge_post.post_index =
      w.post_index ++
        (((emitPostingLists 0 (groupByTrigram w.mergedStream)).2).map
            serializeDirEntry).flatten ++
        serializeDirEntry
          ⟨0xffffff, 0,
            (emitPostingLists 0 (groupByTrigram w.mergedStream)).1.length⟩ ∧
    List.Forall₂ (fun (e : PostDirEntry) (g : Nat × List Nat) =>
        e.trigram = g.1 ∧ e.count = (to_diffs g.2).length - 1 ∧
        e.count + 1 = (to_diffs g.2).length ∧
        readBE32 ((serializeDirEntry e).drop 3) = e.count % U32MOD)
      (emitPostingLists 0 (groupByTrigram w.mergedStream)).2
      (groupByTrigram w.mergedStream) := by
  constructor
  · simp [IndexWriter.merge_post]
  · apply emitPostingLists_spec
    intro g hg
    have hne := groupByTrigram_ids_nonempty w.mergedStream g hg
    obtain ⟨id, rest, hids⟩ : ∃ id rest, g.2 = id :: rest := by
      cases hx : g.2 with
      | nil => exact absurd hx hne
      | cons a b => exact ⟨a, b, rfl⟩
    have hmem := groupByTrigram_mem_ids w.mergedStream g hg id (by rw [hids]; simp)
    have hid := hw _ hmem
    rw [hids]
    exact to_diffs_head_pos id rest hid

/-- A writer holding a small in-memory post buffer, for the C1 witness. -/
def wC1 : IndexWriter :=
  { w0 with post := [⟨5, 0⟩, ⟨5, 2⟩, ⟨9, 1⟩] }

theorem merge_post_count_is_deltas_minus_one_witness :
    wC1.merge_post.post_index =
      wC1.post_index ++
        (((emitPostingLists 0 (groupByTrigram wC1.mergedStream)).2).map
            serializeDirEntry).flatten ++
        serializeDirEntry
          ⟨0xffffff, 0,
            (emitPostingLists 0 (groupByTrigram wC1.mergedStream)).1.length⟩ ∧
    List.Forall₂ (fun (e : PostDirEntry) (g : Nat × List Nat) =>
        e.trigram = g.1 ∧ e.count = (to_diffs g.2).length - 1 ∧
        e.count + 1 = (to_diffs g.2).length ∧
        readBE32 ((serializeDirEntry e).drop 3) = e.count % U32MOD)
      (emitPostingLists 0 (groupByTrigram wC1.mergedStream)).2
      (groupByTrigram wC1.mergedStream) :=
  merge_post_count_is_deltas_minus_one wC1 (by decide)

/- ### C8 — flush layout -/

/-- C8: `flush` first appends one empty name as sentinel (one more
name-index offset entry and a single NUL in the name data), then writes,
in this exact order: MAGIC; the indexed-path list (each path
NUL-terminated, then one extra NUL); the name data; the posting data
(ending in the `0xFFFFFF` + varint-`0` marker); the name index; the post
index (ending in the synthetic terminator entry); the five section
offsets, each the absolute byte position of its section's start,
big-endian; and TRAILER_MAGIC. -/
theorem flush_layout (w : IndexWriter) (pb : List Nat)
    (hp : pathsBytes w.paths = some pb) :
    w.flush = .ok (
      let sec1 := w.index ++ MAGIC
      let sec2 := sec1 ++ pb ++ [0]
      let sec3 := sec2 ++ (w.name_data ++ [0])
      let r := emitPostingLists 0 (groupByTrigram w.mergedStream)
      let sec4 := sec3 ++ r.1 ++ ([255, 255, 255] ++ [0])
      let sec5 := sec4 ++ (w.name_index ++ be32 w.name_data.length)
      let sec6 := sec5 ++
        (w.post_index ++ (r.2.map serializeDirEntry).flatten ++
          serializeDirEntry ⟨0xffffff, 0, r.1.length⟩)
      sec6 ++ be32 sec1.length ++ be32 sec2.length ++ be32 sec3.length ++
        be32 sec4.length ++ be32 sec5.length ++ TRAILER_MAGIC) := by
  simp only [IndexWriter.flush, IndexWriter.add_name, hp]
  simp [IndexWriter.merge_post, IndexWriter.mergedStream, write_trigram,
    write_uvarint, uvarintBytes, List.append_assoc, List.length_append]

theorem flush_layout_witness : ∃ out, w0.flush = .ok out := by
  have h := flush_layout w0 [] (by decide)
  exact ⟨_, h⟩

/- ### C3 — AND/OR are set intersection/union -/

theorem decodeRestrict_some (r : Finset Nat) (ds : List Nat) :
    ∀ prev, decodeRestrict (some r) prev ds =
      (decodeRestrict none prev ds).filter (fun id => id ∈ r) := by
  induction ds with
  | nil =>
    intro prev
    rfl
  | cons d rest ih =>
    intro prev
    simp only [decodeRestrict]
    by_cases h : (prev + d) % U32MOD ∈ r
    · simp [h, ih]
    · simp [h, ih]

theorem list_restrict_inter (idx : Nat → List Nat) (t : Nat) (r : Finset Nat) :
    PostReader.list idx t (some r) = PostReader.list idx t none ∩ r := by
  unfold PostReader.list
  rw [decodeRestrict_some]
  ext x
  simp [List.mem_filter]

/-- C3: over any index (abstracted as the map from a trigram to its
stored delta list), `PostReader::and` applied to `list(a)` and trigram
`b` is the set intersection `list(a) ∩ list(b)`, and `PostReader::or`
applied to `list(a)` and `b` is the union `list(a) ∪ list(b)`. -/
theorem postreader_and_or_algebra (idx : Nat → List Nat) (a b : Nat) :
    PostReader.and idx (PostReader.list idx a none) b =
      PostReader.list idx a none ∩ PostReader.list idx b none ∧
    PostReader.or idx (PostReader.list idx a none) b none =
      PostReader.list idx a none ∪ PostReader.list idx b none := by
  constructor
  · unfold PostReader.and
    rw [list_restrict_inter]
    ext x
    simp only [Finset.mem_inter]
    tauto
  · rfl
